import Mathlib

/-!
Verification of the EPMD-client protocol codec (otp-js/epmd-client).

A Node.js `Buffer` is modelled as a `List Nat` of byte values.  The encoder
functions below are shallow embeddings of `src/protocol/encoder.js`; the
dispatcher of the `Client` class is embedded from the client source; the
response decoder (`src/protocol/decoder.js` is not part of the sources, only
its tests are) is modelled from the specification, as marked on each of its
definitions.
-/

namespace Epmd

/-- Opcode and tag constants from `src/protocol/constants.js`. -/
def KILL_REQ : Nat := 107

def DUMP_REQ : Nat := 100

def NAMES_REQ : Nat := 110

def PORT2_RESP : Nat := 119

def ALIVE2_REQ : Nat := 120

def ALIVE_RESP : Nat := 121

def ALIVE2_X_RESP : Nat := 118

def PORT_PLEASE2_REQ : Nat := 122

def NODE_TYPE_NORMAL : Nat := 77

def NODE_TYPE_HIDDEN : Nat := 72

def PROTOCOL_IPV4 : Nat := 0

def HIGHEST_VERSION : Nat := 6

def LOWEST_VERSION : Nat := 5

/-- The two big-endian bytes of a 16-bit value (`Buffer.writeUInt16BE` payload). -/
def u16be (v : Nat) : List Nat := [v / 256 % 256, v % 256]

/-- Node's `Buffer.writeUInt16BE` into a fresh region: it throws a `RangeError`
when the value does not fit 16 bits, modelled as `none`. -/
def writeUInt16BE (v : Nat) : Option (List Nat) :=
  if v ≤ 65535 then some (u16be v) else none

/-- `requestWrapper` from `src/protocol/encoder.js`: allocate `2 + req.length`
bytes, write the payload length as a big-endian u16 at offset 0 (this write
throws when the length exceeds 65535) and copy the payload at offset 2. -/
def requestWrapper (req : List Nat) : Option (List Nat) :=
  (writeUInt16BE req.length).map (fun lenBytes => lenBytes ++ req)

/-- `Buffer.writeUInt8` at an offset, modelled as `List.set` (the in-range
uses in the encoder write constant one-byte values into valid offsets). -/
def bufWriteUInt8 (buf : List Nat) (v off : Nat) : List Nat :=
  buf.set off v

/-- `Buffer.writeUInt16BE` at an offset inside an existing buffer. -/
def bufWriteUInt16BE (buf : List Nat) (v off : Nat) : List Nat :=
  (buf.set off (v / 256 % 256)).set (off + 1) (v % 256)

/-- `Buffer.write(string, offset)`: copies the source bytes at `offset`,
truncated to the space remaining in the buffer (Node truncates, never grows). -/
def bufWrite (buf src : List Nat) (off : Nat) : List Nat :=
  let k := min src.length (buf.length - off)
  buf.take off ++ src.take k ++ buf.drop (off + k)

/-- `alive2Request(port, nodeName)` from `src/protocol/encoder.js`: allocate
`1+2+1+1+2+2+2+nodeLength+2+0` zeroed bytes and perform the source's write
sequence.  The two variable-valued u16 writes (`port` at offset 1 and
`nodeLength` at offset 9) throw when the value exceeds 65535, modelled by the
guard; all remaining writes are in-range constants. -/
def alive2Request (port : Nat) (nodeName : List Nat) : Option (List Nat) :=
  let nodeLength := nodeName.length
  let len := 1 + 2 + 1 + 1 + 2 + 2 + 2 + nodeLength + 2 + 0
  if port ≤ 65535 ∧ nodeLength ≤ 65535 then
    let buff := List.replicate len 0
    let buff := bufWriteUInt8 buff ALIVE2_REQ 0
    let buff := bufWriteUInt16BE buff port 1
    let buff := bufWriteUInt8 buff NODE_TYPE_NORMAL 3
    let buff := bufWriteUInt8 buff PROTOCOL_IPV4 4
    let buff := bufWriteUInt16BE buff 6 5
    let buff := bufWriteUInt16BE buff 5 7
    let buff := bufWriteUInt16BE buff nodeLength 9
    let buff := bufWrite buff nodeName 11
    let buff := bufWriteUInt16BE buff 0 (11 + nodeLength)
    some buff
  else none

/-- `portPleaseRequest(nodeName)` from `src/protocol/encoder.js`: it computes
`nameLength = byteLength(nodeName) - 1` (JavaScript subtraction, so `-1` for
the empty name), allocates `2 + nameLength` zeroed bytes, writes the opcode at
offset 0 and writes the name at offset 1 (truncating to the available room). -/
def portPleaseRequest (nodeName : List Nat) : List Nat :=
  let nameLength : Int := (nodeName.length : Int) - 1
  let req := List.replicate (2 + nameLength).toNat 0
  let req := bufWriteUInt8 req PORT_PLEASE2_REQ 0
  bufWrite req nodeName 1

/-- `namesRequest()` from `src/protocol/encoder.js`. -/
def namesRequest : List Nat := [NAMES_REQ]

/-- `dumpRequest()` from `src/protocol/encoder.js`. -/
def dumpRequest : List Nat := [DUMP_REQ]

/-- `killRequest()` from `src/protocol/encoder.js`. -/
def killRequest : List Nat := [KILL_REQ]

/-- `Client._send` wraps the request once and writes it to the socket; the
bytes reaching the wire are the wrapped frame. -/
def clientSend (req : List Nat) : Option (List Nat) := requestWrapper req

/-- `Client.register(port, name)`: `_send(encoder.alive2Request(port, name))`. -/
def registerWire (port : Nat) (name : List Nat) : Option (List Nat) :=
  (alive2Request port name).bind clientSend

/-- `Client.getNode(name)`: `_send(encoder.portPleaseRequest(name))`. -/
def getNodeWire (name : List Nat) : Option (List Nat) :=
  clientSend (portPleaseRequest name)

/-- `Client.getAllNodes()`: `_send(encoder.namesRequest())`. -/
def getAllNodesWire : Option (List Nat) := clientSend namesRequest

/-- `Client.dumpEpmd()`: `_send(encoder.dumpRequest())`. -/
def dumpEpmdWire : Option (List Nat) := clientSend dumpRequest

/-- `Client.killEpmd()`: `_send(encoder.killRequest())`. -/
def killEpmdWire : Option (List Nat) := clientSend killRequest

/-- Modelled from the spec: one entry of a node listing, `{name, port, fd}`
with `fd` present only when the line carries an `fd =` clause. -/
structure NodeEntry where
  name : List Nat
  port : Nat
  fd : Option Nat
  deriving DecidableEq

/-- Modelled from the spec: successful registration acknowledgement carrying
the remaining bytes after the two-byte header as `creation`. -/
structure AliveAck where
  creation : List Nat
  deriving DecidableEq

/-- Modelled from the spec: the decoded fields of a `PORT2_RESP`. -/
structure PortInfo where
  port : Nat
  nodeType : Nat
  protocol : Nat
  highestVersion : Nat
  lowestVersion : Nat
  name : List Nat
  extra : List Nat
  deriving DecidableEq

/-- Modelled from the spec: the decoder's error kinds (`ProtocolStatusError`,
`VersionRangeError`, `MalformedFrameError`). -/
inductive DecodeError where
  | protocolStatus (code status : Nat)
  | versionRange (highest lowest : Nat)
  | malformed
  deriving DecidableEq

/-- Modelled from the spec and the decoder tests: a decoded response; the
binary responses carry their originating opcode (the `resp.code` field the
client dispatches on), a text listing carries none. -/
inductive Resp where
  | alive (code : Nat) (data : AliveAck)
  | node (data : PortInfo)
  | nodes (entries : List NodeEntry)
  deriving DecidableEq

instance : DecidableEq (Except DecodeError Resp) := fun a b =>
  match a, b with
  | .error e, .error f =>
    if h : e = f then isTrue (by rw [h]) else isFalse (by simp [h])
  | .ok x, .ok y =>
    if h : x = y then isTrue (by rw [h]) else isFalse (by simp [h])
  | .error _, .ok _ => isFalse (by simp)
  | .ok _, .error _ => isFalse (by simp)

/-- ASCII lower-casing of one byte, for the case-insensitive line grammar. -/
def toLowerByte (b : Nat) : Nat := if 65 ≤ b ∧ b ≤ 90 then b + 32 else b

/-- ASCII whitespace, the bytes matched by the regular expression class. -/
def isSpaceByte (b : Nat) : Bool :=
  b == 32 || b == 9 || b == 10 || b == 13 || b == 11 || b == 12

/-- ASCII decimal digit. -/
def isDigitByte (b : Nat) : Bool :=
  decide (48 ≤ b) && decide (b ≤ 57)

/-- Decimal value of a digit run. -/
def digitsVal (ds : List Nat) : Nat :=
  ds.foldl (fun acc b => acc * 10 + (b - 48)) 0

/-- Whether the first list leads (byte for byte) the second. -/
def isLeadOf : List Nat → List Nat → Bool
  | [], _ => true
  | _ :: _, [] => false
  | a :: as, b :: bs => a == b && isLeadOf as bs

/-- Index just past the first occurrence of `pat` in the list, if any. -/
def findIdxAfter (pat : List Nat) : List Nat → Option Nat
  | [] => if pat.isEmpty then some 0 else none
  | x :: rest =>
    if isLeadOf pat (x :: rest) then some pat.length
    else (findIdxAfter pat rest).map (fun i => i + 1)

/-- Modelled from the spec: the node-line grammar of `NODE_REGEXP` in
`src/protocol/constants.js` — a line matches only if it contains
`name <token> at port <digits>` optionally followed by `, fd = <digits>`
(case-insensitive); the captured name has optional angle-bracket wrapping
stripped and is taken from the original (uncased) bytes. -/
def parseNodeLine (line : List Nat) : Option NodeEntry :=
  let lower := line.map toLowerByte
  match findIdxAfter [110, 97, 109, 101] lower with
  | none => none
  | some i =>
    let ws := (lower.drop i).takeWhile isSpaceByte
    let j := i + ws.length
    let j2 := if (lower.drop j).head? = some 60 then j + 1 else j
    let tok := (lower.drop j2).takeWhile (fun b => !(b == 62 || isSpaceByte b))
    if tok.isEmpty then none
    else
      let j3 := j2 + tok.length
      let j4 := if (lower.drop j3).head? = some 62 then j3 + 1 else j3
      match (lower.drop j4).head? with
      | none => none
      | some c =>
        if isSpaceByte c then
          match findIdxAfter [97, 116, 32, 112, 111, 114, 116, 32] (lower.drop (j4 + 1)) with
          | none => none
          | some k =>
            let after := lower.drop (j4 + 1 + k)
            let digits := after.takeWhile isDigitByte
            if digits.isEmpty then none
            else
              let restLine := after.drop digits.length
              let fd :=
                if isLeadOf [44, 32, 102, 100, 32, 61, 32] restLine then
                  let d2 := (restLine.drop 7).takeWhile isDigitByte
                  if d2.isEmpty then none else some (digitsVal d2)
                else none
              some ⟨(line.drop j2).take tok.length, digitsVal digits, fd⟩
        else none

/-- Split a byte sequence on line-break bytes, as `toString().split` does
(an empty input yields one empty line). -/
def splitOnNl : List Nat → List (List Nat)
  | [] => [[]]
  | b :: rest =>
    if b == 10 then [] :: splitOnNl rest
    else
      match splitOnNl rest with
      | [] => [[b]]
      | l :: ls => (b :: l) :: ls

/-- Modelled from the spec: the text-listing path of the decoder — split on
line breaks and keep, in input order, each line the grammar accepts. -/
def decodeText (data : List Nat) : List NodeEntry :=
  (splitOnNl data).filterMap parseNodeLine

/-- Read one byte. -/
def readU8 : List Nat → Option (Nat × List Nat)
  | [] => none
  | b :: rest => some (b, rest)

/-- Read a big-endian u16. -/
def readU16 : List Nat → Option (Nat × List Nat)
  | a :: b :: rest => some (a * 256 + b, rest)
  | _ => none

/-- Read exactly `n` bytes, failing when fewer are available (the decoder
must fail rather than read out of bounds). -/
def readBytes (n : Nat) (xs : List Nat) : Option (List Nat × List Nat) :=
  if n ≤ xs.length then some (xs.take n, xs.drop n) else none

/-- Modelled from the spec: the fixed fields of a `PORT2_RESP` after the
status byte — `port u16, nodeType u8, protocol u1, highestVersion u16,
lowestVersion u16, nameLen u16, name, extraLen u16, extra`. -/
def parsePort2Fields (r : List Nat) : Option PortInfo := do
  let (port, r) ← readU16 r
  let (nodeType, r) ← readU8 r
  let (protoTag, r) ← readU8 r
  let (hv, r) ← readU16 r
  let (lv, r) ← readU16 r
  let (nameLen, r) ← readU16 r
  let (name, r) ← readBytes nameLen r
  let (extraLen, r) ← readU16 r
  let (extra, _) ← readBytes extraLen r
  pure ⟨port, nodeType, protoTag, hv, lv, name, extra⟩

/-- Modelled from the spec: `decode` of `src/protocol/decoder.js` (absent from
the sources; only its tests are present).  Dispatch on the first byte: the two
alive opcodes read a status byte and return the remaining bytes as `creation`
on status 0, failing otherwise; `PORT2_RESP` reads its fixed fields and fails
when the advertised version range does not overlap
`[LOWEST_VERSION, HIGHEST_VERSION]`; any other first byte makes the whole
payload a text listing. -/
def decode (data : List Nat) : Except DecodeError Resp :=
  match data with
  | [] => .ok (.nodes (decodeText []))
  | b0 :: rest =>
    if b0 = ALIVE_RESP ∨ b0 = ALIVE2_X_RESP then
      match rest with
      | [] => .error .malformed
      | status :: tail =>
        if status = 0 then .ok (.alive b0 ⟨tail⟩)
        else .error (.protocolStatus b0 status)
    else if b0 = PORT2_RESP then
      match rest with
      | [] => .error .malformed
      | status :: tail =>
        if status ≠ 0 then .error (.protocolStatus PORT2_RESP status)
        else
          match parsePort2Fields tail with
          | none => .error .malformed
          | some info =>
            if info.highestVersion < LOWEST_VERSION ∨ info.lowestVersion > HIGHEST_VERSION then
              .error (.versionRange info.highestVersion info.lowestVersion)
            else .ok (.node info)
    else .ok (.nodes (decodeText data))

/-- `TYPE_EVENT_MAP` from the client source: a static opcode-to-event table. -/
def TYPE_EVENT_MAP (code : Nat) : Option String :=
  if code = ALIVE_RESP then some "alive"
  else if code = ALIVE2_X_RESP then some "alive"
  else if code = PORT2_RESP then some "node"
  else none

/-- The `resp.code` field the client inspects: present on binary responses,
absent on a decoded node listing. -/
def respCode : Resp → Option Nat
  | .alive code _ => some code
  | .node _ => some PORT2_RESP
  | .nodes _ => none

/-- `Client._onData`: decode, then emit `TYPE_EVENT_MAP[resp.code]` when the
response has a code, `nodeinfo` when it has none, and `error` when decoding
threw. -/
def onDataEvent (data : List Nat) : String :=
  match decode data with
  | .error _ => "error"
  | .ok resp =>
    match respCode resp with
    | some code => (TYPE_EVENT_MAP code).getD "undefined"
    | none => "nodeinfo"

/-- The event mapping exactly as the spec's dispatcher contract words it, for
comparison with the client's `onDataEvent`. -/
def claimedEvent : Except DecodeError Resp → String
  | .error _ => "error"
  | .ok (.alive _ _) => "alive"
  | .ok (.node _) => "node"
  | .ok (.nodes _) => "nodeinfo"

/-- `createPort2Resp` from `src/test/decoder.js` (in-range values): the test
frame `PORT2_RESP, status, port u16, nodeType, protocol, highestVersion u16,
lowestVersion u16, nameLen u16, name, extraLen=0`. -/
def createPort2Resp (responseCode : Nat) (nodeName : List Nat)
    (port highestVersion lowestVersion : Nat) : List Nat :=
  [PORT2_RESP, responseCode] ++ u16be port ++ [NODE_TYPE_NORMAL, PROTOCOL_IPV4]
    ++ u16be highestVersion ++ u16be lowestVersion
    ++ u16be nodeName.length ++ nodeName ++ u16be 0

/-- `createNamesOrDumpResp` from `src/test/decoder.js`: `nodes.join('\n')`. -/
def createNamesOrDumpResp : List (List Nat) → List Nat
  | [] => []
  | [l] => l
  | l :: ls => l ++ 10 :: createNamesOrDumpResp ls

/-- Whether the first byte is one of the known binary response opcodes. -/
def headIsBinaryOpcode : List Nat → Bool
  | [] => false
  | b :: _ => b == ALIVE_RESP || b == ALIVE2_X_RESP || b == PORT2_RESP

/-- Bytes of the ASCII text `name test at port 342`. -/
def lineNoFdEx : List Nat :=
  [110, 97, 109, 101, 32, 116, 101, 115, 116, 32,
   97, 116, 32, 112, 111, 114, 116, 32, 51, 52, 50]

/-- Bytes of the ASCII text `name test at port 342, fd = 5`. -/
def lineFdEx : List Nat :=
  lineNoFdEx ++ [44, 32, 102, 100, 32, 61, 32, 53]

/-- Bytes of the ASCII text `testing`. -/
def nameTesting : List Nat := [116, 101, 115, 116, 105, 110, 103]

end Epmd

namespace Epmd

theorem requestWrapper_eq (p : List Nat) (h : p.length ≤ 65535) :
    requestWrapper p = some (u16be p.length ++ p) := by
  simp [requestWrapper, writeUInt16BE, h]

theorem requestWrapper_none (p : List Nat) (h : 65535 < p.length) :
    requestWrapper p = none := by
  simp [requestWrapper, writeUInt16BE]
  omega

theorem drop_append_len (L T : List Nat) (k : Nat) :
    (L ++ T).drop (L.length + k) = T.drop k := by
  induction L with
  | nil => simp
  | cons a as ih => simp [Nat.succ_add, ih]

theorem bufWrite_at (L T src : List Nat) (off : Nat) (hL : L.length = off)
    (h : src.length ≤ T.length) :
    bufWrite (L ++ T) src off = L ++ src ++ T.drop src.length := by
  subst hL
  simp only [bufWrite]
  have hk : min src.length ((L ++ T).length - L.length) = src.length := by
    simp only [List.length_append]
    omega
  rw [hk, List.take_left, List.take_length, drop_append_len, List.append_assoc]

theorem set2_after (L R : List Nat) (i v1 v2 : Nat) (hL : L.length = i) :
    ((L ++ R).set i v1).set (i + 1) v2 = L ++ (R.set 0 v1).set 1 v2 := by
  subst hL
  rw [List.set_append_right _ _ (Nat.le_refl _), Nat.sub_self,
    List.set_append_right _ _ (Nat.le_succ _),
    show L.length + 1 - L.length = 1 from by omega]

theorem portPlease_nil : portPleaseRequest [] = [PORT_PLEASE2_REQ] := by decide

theorem portPlease_cons (a : Nat) (as : List Nat) :
    portPleaseRequest (a :: as) = PORT_PLEASE2_REQ :: a :: as := by
  have hsz : ((2 : Int) + (((a :: as).length : Int) - 1)).toNat = as.length + 2 := by
    simp only [List.length_cons]
    omega
  simp only [portPleaseRequest, bufWriteUInt8]
  rw [hsz]
  show bufWrite ([PORT_PLEASE2_REQ] ++ (0 :: List.replicate as.length 0)) (a :: as) 1 = _
  rw [bufWrite_at _ _ _ _ (by simp) (by simp)]
  have hd : (0 :: List.replicate as.length (0 : Nat)).drop (a :: as).length = [] := by
    rw [List.drop_eq_nil_iff]
    simp
  rw [hd]
  simp

theorem portPlease_length (name : List Nat) :
    (portPleaseRequest name).length = ((2 : Int) + ((name.length : Int) - 1)).toNat := by
  match name with
  | [] => decide
  | a :: as =>
    rw [portPlease_cons]
    simp only [List.length_cons]
    omega

end Epmd

namespace Epmd

set_option maxHeartbeats 1600000 in
theorem alive2_layout (port : Nat) (name : List Nat) (hp : port ≤ 65535)
    (hn : name.length ≤ 65535) :
    alive2Request port name
      = some ([ALIVE2_REQ, port / 256 % 256, port % 256, NODE_TYPE_NORMAL, PROTOCOL_IPV4,
               0, 6, 0, 5, name.length / 256 % 256, name.length % 256] ++ (name ++ [0, 0])) := by
  have hrep : List.replicate (1 + 2 + 1 + 1 + 2 + 2 + 2 + name.length + 2 + 0) (0 : Nat)
      = List.replicate 11 0 ++ List.replicate (name.length + 2) 0 := by
    rw [← List.replicate_add]
    congr 1
  simp only [alive2Request]
  rw [if_pos ⟨hp, hn⟩, hrep]
  show some (bufWriteUInt16BE
      (bufWrite
        ([ALIVE2_REQ, port / 256 % 256, port % 256, NODE_TYPE_NORMAL, PROTOCOL_IPV4,
          0, 6, 0, 5, name.length / 256 % 256, name.length % 256]
          ++ List.replicate (name.length + 2) 0)
        name 11)
      0 (11 + name.length)) = _
  rw [bufWrite_at _ _ _ _ (by simp) (by simp only [List.length_replicate]; omega)]
  have hdrop : (List.replicate (name.length + 2) (0 : Nat)).drop name.length = [0, 0] := by
    rw [List.replicate_add, List.drop_left' (by simp)]
    rfl
  rw [hdrop, ← List.append_assoc]
  simp only [bufWriteUInt16BE]
  rw [set2_after _ _ _ _ _ (by simp; omega)]
  show some (([ALIVE2_REQ, port / 256 % 256, port % 256, NODE_TYPE_NORMAL, PROTOCOL_IPV4,
      0, 6, 0, 5, name.length / 256 % 256, name.length % 256] ++ name) ++ [0, 0]) = _
  rw [List.append_assoc]

end Epmd

namespace Epmd

theorem readU16_u16be (v : Nat) (rest : List Nat) (h : v ≤ 65535) :
    readU16 (u16be v ++ rest) = some (v, rest) := by
  have hv : v / 256 % 256 * 256 + v % 256 = v := by omega
  simp [u16be, readU16, hv]

theorem readU16_u16be_nil (v : Nat) (h : v ≤ 65535) :
    readU16 (u16be v) = some (v, []) := by
  have hv : v / 256 % 256 * 256 + v % 256 = v := by omega
  simp [u16be, readU16, hv]

theorem readBytes_exact (l r : List Nat) :
    readBytes l.length (l ++ r) = some (l, r) := by
  unfold readBytes
  rw [if_pos (by simp), List.take_left, List.drop_left]

theorem parsePort2_frame (port hv lv : Nat) (name : List Nat)
    (hp : port ≤ 65535) (hhv : hv ≤ 65535) (hlv : lv ≤ 65535)
    (hn : name.length ≤ 65535) :
    parsePort2Fields (u16be port ++ NODE_TYPE_NORMAL :: PROTOCOL_IPV4 ::
        (u16be hv ++ (u16be lv ++ (u16be name.length ++ (name ++ u16be 0)))))
      = some ⟨port, NODE_TYPE_NORMAL, PROTOCOL_IPV4, hv, lv, name, []⟩ := by
  simp [parsePort2Fields, readU16_u16be, readU16_u16be_nil, readU8, readBytes_exact,
    readBytes, hp, hhv, hlv, hn]

theorem decode_createPort2 (name : List Nat) (port hv lv : Nat)
    (hp : port ≤ 65535) (hhv : hv ≤ 65535) (hlv : lv ≤ 65535)
    (hn : name.length ≤ 65535) :
    decode (createPort2Resp 0 name port hv lv)
      = if hv < LOWEST_VERSION ∨ lv > HIGHEST_VERSION
        then .error (.versionRange hv lv)
        else .ok (.node ⟨port, NODE_TYPE_NORMAL, PROTOCOL_IPV4, hv, lv, name, []⟩) := by
  have hparse := parsePort2_frame port hv lv name hp hhv hlv hn
  simp only [createPort2Resp, List.cons_append, List.nil_append, decode,
    PORT2_RESP, ALIVE_RESP, ALIVE2_X_RESP]
  norm_num
  rw [hparse]

end Epmd

namespace Epmd

theorem splitOnNl_no_nl (l : List Nat) (h : (10 : Nat) ∉ l) :
    splitOnNl l = [l] := by
  induction l with
  | nil => rfl
  | cons b rest ih =>
    simp only [List.mem_cons, not_or] at h
    obtain ⟨h1, h2⟩ := h
    have hb : (b == 10) = false := by
      simp
      omega
    simp [splitOnNl, hb, ih h2]

theorem splitOnNl_append (l rest : List Nat) (h : (10 : Nat) ∉ l) :
    splitOnNl (l ++ 10 :: rest) = l :: splitOnNl rest := by
  induction l with
  | nil => simp [splitOnNl]
  | cons b bs ih =>
    simp only [List.mem_cons, not_or] at h
    obtain ⟨h1, h2⟩ := h
    have hb : (b == 10) = false := by
      simp
      omega
    simp [splitOnNl, hb, ih h2]

theorem splitOnNl_join (ls : List (List Nat)) (hne : ls ≠ [])
    (h : ∀ l ∈ ls, (10 : Nat) ∉ l) :
    splitOnNl (createNamesOrDumpResp ls) = ls := by
  induction ls with
  | nil => cases hne rfl
  | cons l tail ih =>
    cases tail with
    | nil => simp [createNamesOrDumpResp, splitOnNl_no_nl l (h l (by simp))]
    | cons l2 tail2 =>
      rw [show createNamesOrDumpResp (l :: l2 :: tail2)
          = l ++ 10 :: createNamesOrDumpResp (l2 :: tail2) from rfl]
      rw [splitOnNl_append _ _ (h l (by simp))]
      rw [ih (by simp) (fun x hx => h x (List.mem_cons_of_mem _ hx))]

theorem decode_text (data : List Nat) (h : headIsBinaryOpcode data = false) :
    decode data = .ok (.nodes (decodeText data)) := by
  match data with
  | [] => rfl
  | b :: rest =>
    simp only [headIsBinaryOpcode, Bool.or_eq_false_iff, beq_eq_false_iff_ne, ne_eq] at h
    obtain ⟨⟨h1, h2⟩, h3⟩ := h
    simp only [decode]
    rw [if_neg (not_or.mpr ⟨h1, h2⟩), if_neg h3]

theorem decode_ok_alive (data : List Nat) (c : Nat) (a : AliveAck)
    (h : decode data = .ok (.alive c a)) :
    c = ALIVE_RESP ∨ c = ALIVE2_X_RESP := by
  match data with
  | [] => simp [decode] at h
  | b :: rest =>
    by_cases h1 : b = ALIVE_RESP ∨ b = ALIVE2_X_RESP
    · simp only [decode, if_pos h1] at h
      split at h
      · simp at h
      · split at h
        · simp only [Except.ok.injEq, Resp.alive.injEq] at h
          obtain ⟨hbc, _⟩ := h
          exact hbc ▸ h1
        · simp at h
    · simp only [decode, if_neg h1] at h
      by_cases h2 : b = PORT2_RESP
      · rw [if_pos h2] at h
        split at h
        · simp at h
        · split at h
          · simp at h
          · split at h
            · simp at h
            · split at h
              · simp at h
              · simp at h
      · rw [if_neg h2] at h
        simp at h

end Epmd

namespace Epmd

/-- Claim C1: for every payload of at most 65535 bytes, `requestWrapper`
returns a frame of length `2 + p.length` whose first two bytes are the payload
length as a big-endian u16 and whose remaining bytes are exactly the payload;
the length prefix always equals the byte length of the wrapped payload. -/
theorem C1_requestWrapper (p : List Nat) (h : p.length ≤ 65535) :
    requestWrapper p = some (u16be p.length ++ p)
    ∧ (u16be p.length ++ p).length = 2 + p.length
    ∧ (u16be p.length ++ p).take 2 = [p.length / 256, p.length % 256]
    ∧ (u16be p.length ++ p).drop 2 = p := by
  have h2 : p.length / 256 % 256 = p.length / 256 := by omega
  refine ⟨requestWrapper_eq p h, ?_, ?_, ?_⟩
  · simp only [List.length_append, u16be, List.length_cons, List.length_nil]
  · rw [List.take_left' (by simp [u16be])]
    simp [u16be, h2]
  · rw [List.drop_left' (by simp [u16be])]

/-- Witness for C1 at the payload `[1, 2, 3]`. -/
theorem C1_witness :
    requestWrapper [1, 2, 3] = some (u16be ([1, 2, 3] : List Nat).length ++ [1, 2, 3])
    ∧ (u16be ([1, 2, 3] : List Nat).length ++ [1, 2, 3]).length
        = 2 + ([1, 2, 3] : List Nat).length
    ∧ (u16be ([1, 2, 3] : List Nat).length ++ [1, 2, 3]).take 2
        = [([1, 2, 3] : List Nat).length / 256, ([1, 2, 3] : List Nat).length % 256]
    ∧ (u16be ([1, 2, 3] : List Nat).length ++ [1, 2, 3]).drop 2 = [1, 2, 3] :=
  C1_requestWrapper [1, 2, 3] (by decide)

/-- Claim C10: a payload longer than 65535 bytes makes `requestWrapper` fail
(the u16 length write rejects the value) rather than wrap around, so a
returned frame always carries a prefix equal to its payload's true length. -/
theorem C10_overflow_rejected :
    (∀ p : List Nat, 65535 < p.length → requestWrapper p = none)
    ∧ ∀ p w, requestWrapper p = some w →
        p.length ≤ 65535 ∧ w = u16be p.length ++ p := by
  constructor
  · exact fun p h => requestWrapper_none p h
  · intro p w hw
    by_cases h : p.length ≤ 65535
    · rw [requestWrapper_eq p h] at hw
      simp only [Option.some.injEq] at hw
      exact ⟨h, hw.symm⟩
    · rw [requestWrapper_none p (by omega)] at hw
      simp at hw

/-- Witness for C10 at a 65536-byte payload. -/
theorem C10_witness : requestWrapper (List.replicate 65536 0) = none :=
  C10_overflow_rejected.1 (List.replicate 65536 0)
    (by rw [List.length_replicate]; omega)

/-- Counterexample to claim C2: for the two-byte name `ab` the frame has
3 bytes — `byteLength(name)` bytes beyond the opcode — not the
`1 + (byteLength(name) − 1) = 2` bytes the claim describes. -/
theorem C2_counterexample :
    ¬ (portPleaseRequest [97, 98]).length = 1 + (([97, 98] : List Nat).length - 1) := by
  decide

/-- Claim C2 (amended): for every non-empty name, `portPleaseRequest`
allocates `2 + (byteLength(name) − 1) = byteLength(name) + 1` bytes in total —
exactly `byteLength(name)` bytes beyond the opcode byte, the name's true
length — writing opcode 122 at offset 0 and the full name from offset 1 with
no explicit length field and no truncation. -/
theorem C2_amended (name : List Nat) (h : name ≠ []) :
    portPleaseRequest name = PORT_PLEASE2_REQ :: name
    ∧ (portPleaseRequest name).length = name.length + 1 := by
  match name with
  | [] => cases h rfl
  | a :: as =>
    refine ⟨portPlease_cons a as, ?_⟩
    rw [portPlease_cons]
    simp

/-- Witness for the amended C2 at the name `ab`. -/
theorem C2_amended_witness :
    portPleaseRequest [97, 98] = PORT_PLEASE2_REQ :: [97, 98]
    ∧ (portPleaseRequest [97, 98]).length = ([97, 98] : List Nat).length + 1 :=
  C2_amended [97, 98] (by decide)

/-- Claim C9: `portPleaseRequest` is total on every name; for the empty name
it allocates `(2 + (0 − 1)).toNat = 1` byte and returns the one-byte frame
containing only opcode 122, and in general the frame has
`(2 + (byteLength(name) − 1)).toNat` bytes, with no out-of-bounds access. -/
theorem C9_total_empty_name :
    portPleaseRequest [] = [PORT_PLEASE2_REQ]
    ∧ (portPleaseRequest []).length = ((2 : Int) + ((0 : Int) - 1)).toNat
    ∧ ∀ name : List Nat,
        (portPleaseRequest name).length
          = ((2 : Int) + ((name.length : Int) - 1)).toNat :=
  ⟨portPlease_nil, by decide, portPlease_length⟩

/-- Witness instantiating the universal part of C9 at the name `a`. -/
theorem C9_witness :
    (portPleaseRequest [97]).length
      = ((2 : Int) + ((([97] : List Nat).length : Int) - 1)).toNat :=
  C9_total_empty_name.2.2 [97]

/-- Claim C5: for every valid port and non-empty name, `alive2Request`
returns exactly the Register layout — opcode 120, port u16, nodeType 77,
protocol 0, highestVersion 6, lowestVersion 5, nameLen u16, the name bytes,
extraLen 0 — with total length `13 + byteLength(name)`. -/
theorem C5_register_layout (port : Nat) (name : List Nat)
    (hp : port ≤ 65535) (_h0 : name ≠ []) (hn : name.length ≤ 65535) :
    alive2Request port name
      = some ([ALIVE2_REQ] ++ u16be port ++ [NODE_TYPE_NORMAL, PROTOCOL_IPV4]
          ++ u16be 6 ++ u16be 5 ++ u16be name.length ++ name ++ u16be 0)
    ∧ ∀ buf, alive2Request port name = some buf → buf.length = 13 + name.length := by
  have hl := alive2_layout port name hp hn
  constructor
  · rw [hl]
    simp [u16be]
  · intro buf hbuf
    rw [hl] at hbuf
    simp only [Option.some.injEq] at hbuf
    subst hbuf
    simp
    omega

/-- Witness for C5 at port 1337 and name `testing`. -/
theorem C5_witness :
    alive2Request 1337 nameTesting
      = some ([ALIVE2_REQ] ++ u16be 1337 ++ [NODE_TYPE_NORMAL, PROTOCOL_IPV4]
          ++ u16be 6 ++ u16be 5 ++ u16be nameTesting.length ++ nameTesting ++ u16be 0)
    ∧ ∀ buf, alive2Request 1337 nameTesting = some buf
        → buf.length = 13 + nameTesting.length :=
  C5_register_layout 1337 nameTesting (by decide) (by decide) (by decide)

end Epmd

namespace Epmd

/-- Claim C8: every outbound request (register, query-port, list-names, dump,
kill) reaches the wire wrapped exactly once: the bytes written are the 2-byte
big-endian length prefix followed directly by the unwrapped encoder output,
for each of the five request kinds. -/
theorem C8_wrap_once (port : Nat) (name rname : List Nat)
    (hp : port ≤ 65535) (hn : name.length ≤ 65522) (hr : rname.length ≤ 65534) :
    (∃ raw, alive2Request port name = some raw
        ∧ registerWire port name = some (u16be raw.length ++ raw))
    ∧ getNodeWire rname
        = some (u16be (portPleaseRequest rname).length ++ portPleaseRequest rname)
    ∧ getAllNodesWire = some (u16be namesRequest.length ++ namesRequest)
    ∧ dumpEpmdWire = some (u16be dumpRequest.length ++ dumpRequest)
    ∧ killEpmdWire = some (u16be killRequest.length ++ killRequest) := by
  refine ⟨?_, ?_, by decide, by decide, by decide⟩
  · have hl := alive2_layout port name hp (by omega)
    refine ⟨_, hl, ?_⟩
    show (alive2Request port name).bind clientSend = _
    rw [hl]
    show requestWrapper _ = _
    exact requestWrapper_eq _ (by simp; omega)
  · show requestWrapper (portPleaseRequest rname) = _
    exact requestWrapper_eq _ (by rw [portPlease_length]; omega)

/-- Witness for C8 at port 1337 and name `testing`. -/
theorem C8_witness :
    (∃ raw, alive2Request 1337 nameTesting = some raw
        ∧ registerWire 1337 nameTesting = some (u16be raw.length ++ raw))
    ∧ getNodeWire nameTesting
        = some (u16be (portPleaseRequest nameTesting).length
            ++ portPleaseRequest nameTesting)
    ∧ getAllNodesWire = some (u16be namesRequest.length ++ namesRequest)
    ∧ dumpEpmdWire = some (u16be dumpRequest.length ++ dumpRequest)
    ∧ killEpmdWire = some (u16be killRequest.length ++ killRequest) :=
  C8_wrap_once 1337 nameTesting nameTesting (by decide) (by decide) (by decide)

/-- Claim C3: decoding a status-0 `PORT2_RESP` fails with a version-range
error exactly when the advertised range does not overlap the client's
`[LOWEST_VERSION, HIGHEST_VERSION]` window — precisely when
`highestVersion < 5` or `lowestVersion > 6`. -/
theorem C3_version_overlap (name : List Nat) (port hv lv : Nat)
    (hp : port ≤ 65535) (hhv : hv ≤ 65535) (hlv : lv ≤ 65535)
    (hn : name.length ≤ 65535) :
    decode (createPort2Resp 0 name port hv lv) = .error (.versionRange hv lv)
      ↔ (hv < LOWEST_VERSION ∨ lv > HIGHEST_VERSION) := by
  rw [decode_createPort2 name port hv lv hp hhv hlv hn]
  by_cases hc : hv < LOWEST_VERSION ∨ lv > HIGHEST_VERSION
  · simp [hc]
  · simp [hc]

/-- Witness for C3: `highestVersion = 0, lowestVersion = 5` fails, and
`highestVersion = 6, lowestVersion = 10` fails, both with the version error. -/
theorem C3_witness :
    decode (createPort2Resp 0 nameTesting 1337 0 5) = .error (.versionRange 0 5)
    ∧ decode (createPort2Resp 0 nameTesting 1337 6 10)
        = .error (.versionRange 6 10) :=
  ⟨(C3_version_overlap nameTesting 1337 0 5 (by decide) (by decide) (by decide)
      (by decide)).mpr (Or.inl (by decide)),
   (C3_version_overlap nameTesting 1337 6 10 (by decide) (by decide) (by decide)
      (by decide)).mpr (Or.inr (by decide))⟩

/-- Claim C6: on a first byte of ALIVE_RESP or ALIVE2_X_RESP, status byte 0
decodes to an `AliveAck` whose creation is exactly the bytes after the
two-byte header, and every non-zero status fails with a protocol error naming
the opcode and status — never a partial success value. -/
theorem C6_alive_status (c s : Nat) (tail : List Nat)
    (hc : c = ALIVE_RESP ∨ c = ALIVE2_X_RESP) :
    decode (c :: s :: tail)
      = if s = 0 then .ok (.alive c ⟨tail⟩)
        else .error (.protocolStatus c s) := by
  simp only [decode]
  rw [if_pos hc]

/-- Witness for C6 at the frame of the decoder test (opcode 121, status 0,
creation bytes `[0, 1]`). -/
theorem C6_witness :
    decode (ALIVE_RESP :: 0 :: [0, 1])
      = (if (0 : Nat) = 0 then Except.ok (Resp.alive ALIVE_RESP ⟨[0, 1]⟩)
         else .error (.protocolStatus ALIVE_RESP 0)) :=
  C6_alive_status ALIVE_RESP 0 [0, 1] (Or.inl rfl)

/-- Claim C4: an input whose first byte is no known binary opcode decodes as
a text listing: the payload is split on line breaks, each line matching
`name <token> at port <digits>` (optionally `, fd = <digits>`) yields one
entry in input order with duplicates kept, and blank or non-matching lines
are silently dropped; `name test at port 342, fd = 5` gives name `test`,
port 342, fd 5. -/
theorem C4_text_listing :
    (∀ data : List Nat, headIsBinaryOpcode data = false →
        decode data = .ok (.nodes ((splitOnNl data).filterMap parseNodeLine)))
    ∧ (∀ ls : List (List Nat), ls ≠ [] → (∀ l ∈ ls, (10 : Nat) ∉ l) →
        decodeText (createNamesOrDumpResp ls) = ls.filterMap parseNodeLine)
    ∧ parseNodeLine lineFdEx = some ⟨[116, 101, 115, 116], 342, some 5⟩
    ∧ parseNodeLine lineNoFdEx = some ⟨[116, 101, 115, 116], 342, none⟩
    ∧ parseNodeLine [32] = none
    ∧ decodeText (createNamesOrDumpResp [lineNoFdEx, lineFdEx, lineNoFdEx])
        = [⟨[116, 101, 115, 116], 342, none⟩, ⟨[116, 101, 115, 116], 342, some 5⟩,
           ⟨[116, 101, 115, 116], 342, none⟩] := by
  refine ⟨?_, ?_, by decide, by decide, by decide, by decide⟩
  · intro data h
    rw [decode_text data h]
    rfl
  · intro ls hne hno
    show (splitOnNl (createNamesOrDumpResp ls)).filterMap parseNodeLine = _
    rw [splitOnNl_join ls hne hno]

/-- Witness for C4 at the single-line listing `name test at port 342`. -/
theorem C4_witness :
    decode lineNoFdEx
      = .ok (.nodes ((splitOnNl lineNoFdEx).filterMap parseNodeLine)) :=
  C4_text_listing.1 lineNoFdEx (by decide)

/-- Claim C7: the dispatcher maps every decoded outcome to exactly one event:
`ALIVE_RESP`/`ALIVE2_X_RESP` responses to `alive`, `PORT2_RESP` to `node`, a
node listing (no opcode) to `nodeinfo`, and a decode failure to `error`. -/
theorem C7_dispatch (data : List Nat) :
    onDataEvent data = claimedEvent (decode data) := by
  rcases hd : decode data with e | r
  · simp [onDataEvent, claimedEvent, hd]
  · cases r with
    | alive c a =>
      rcases decode_ok_alive data c a hd with h | h <;>
        simp [onDataEvent, claimedEvent, hd, respCode, TYPE_EVENT_MAP, h,
          ALIVE_RESP, ALIVE2_X_RESP]
    | node p =>
      simp [onDataEvent, claimedEvent, hd, respCode, TYPE_EVENT_MAP,
        PORT2_RESP, ALIVE_RESP, ALIVE2_X_RESP]
    | nodes l =>
      simp [onDataEvent, claimedEvent, hd, respCode]

/-- Witness for C7 at a concrete successful alive frame. -/
theorem C7_witness :
    onDataEvent [121, 0, 0, 1] = claimedEvent (decode [121, 0, 0, 1]) :=
  C7_dispatch [121, 0, 0, 1]

end Epmd
